import Mathlib

/-!
Shallow embedding of `src/data-transform.js` (the `transformData` declarative
object-transformation engine) together with theorems settling the frozen
claims about it.

JavaScript values are modelled by `JValue`; a JS object field that is absent
is distinguished from a field explicitly present with the value `undefined`
(the absent marker), which is the load-bearing distinction of the library.
The external `@szydlovski/deep-property` accessor is not part of this
repository; it is modelled from the spec's contract for it (section 4.1).
Stateful JS (the incrementally built `resultObject`, `console.warn`) becomes
explicit state passing: the computation monad `TM` is `Except` for thrown
errors paired with an accumulated list of emitted console warnings.
-/

/-- A JavaScript value.  `undefined` is the absent marker; objects are
association lists of own enumerable string keys in insertion order. -/
inductive JValue : Type where
  | undefined : JValue
  | null : JValue
  | bool (b : Bool) : JValue
  | num (n : Int) : JValue
  | str (s : String) : JValue
  | arr (elems : List JValue) : JValue
  | obj (fields : List (String × JValue)) : JValue
deriving Repr

/-- One segment of an explicit array path handed to the deep-property
accessor: a string key, a numeric index, or an illegal segment (such as the
JS `null` used in the repository's error-handling tests). -/
inductive PathSeg : Type where
  | key (s : String)
  | idx (n : Int)
  | bad
deriving Repr, DecidableEq

/-- A path value accepted by the accessor: a dot-delimited string, or an
explicit segment sequence. -/
inductive JPath : Type where
  | dot (s : String)
  | segs (l : List PathSeg)
deriving Repr, DecidableEq

/-- The own enumerable fields of a JS object, in insertion order. -/
abbrev Fields := List (String × JValue)

/-- First-occurrence association-list lookup, i.e. JS own-property access on
our object model (`some JValue.undefined` means the key is present with the
absent marker, `none` means it is not present at all). -/
def lookupField : Fields → String → Option JValue
  | [], _ => none
  | (k', v') :: rest, k => if k' = k then some v' else lookupField rest k

/-- JS property write on the object model: overwrite the existing key in
place (keeping its position) or append a new key at the end. -/
def assocSet : Fields → String → JValue → Fields
  | [], k, v => [(k, v)]
  | (k', v') :: rest, k, v =>
      if k' = k then (k', v) :: rest else (k', v') :: assocSet rest k v

/-- Property read used while walking a path: objects are indexed by key,
arrays by a decimal index; anything else is not indexable. -/
def jGet : JValue → String → Option JValue
  | .obj fields, k => lookupField fields k
  | .arr elems, k =>
      match k.toNat? with
      | some i => elems.get? i
      | none => none
  | _, _ => none

/-- Split a character list on a separator, exactly like the JS
`String.prototype.split` with a single-character separator (an empty string
yields one empty part, a trailing separator yields a trailing empty part). -/
def splitChars (sep : Char) : List Char → List String
  | [] => [""]
  | c :: rest =>
      let parts := splitChars sep rest
      if c = sep then "" :: parts
      else
        match parts with
        | [] => [String.mk [c]]
        | p :: ps => (String.mk (c :: p.data)) :: ps

/-- Turn a path segment into the string key the accessor walks with; an
illegal segment has no key. -/
def segToKey : PathSeg → Option String
  | .key s => some s
  | .idx n => some (toString n)
  | .bad => none

/-- Modelled from the spec: the external accessor's path normalisation.
A dot string splits on dots; a segment sequence maps each segment to its
key.  An illegal segment, an empty path, or an empty segment makes the
accessor fail with its `DeepPropertyError` (returned here as `none`, the
caller attaches the error value). -/
def normalizePath (path : JPath) : Option (List String) :=
  let parts? : Option (List String) :=
    match path with
    | .dot s => some (splitChars '.' s.data)
    | .segs l => l.mapM segToKey
  match parts? with
  | none => none
  | some parts =>
      if parts.isEmpty || parts.contains "" then none else some parts

/-- Modelled from the spec: the accessor's walk.  Returns `(false, absent)`
as soon as a segment is missing or the container is not indexable, and
`(true, value)` when the full path resolves — even when `value` is the
absent marker itself. -/
def walkPath : JValue → List String → Bool × JValue
  | v, [] => (true, v)
  | v, k :: rest =>
      match jGet v k with
      | some next => walkPath next rest
      | none => (false, JValue.undefined)

/-- The `to` field of an instruction: absent (JS `undefined`), the JS `null`
(merge into the result object), or a path in the result. -/
inductive ToSpec : Type where
  | missing
  | null
  | path (p : JPath)

mutual

/-- An error thrown during a transformation.  `dataTransformError` is the
engine's own `DataTransformError` (message plus the offending instruction
when one was attached); `deepPropertyError` is the external accessor's
`DeepPropertyError`; `userError` is an arbitrary exception thrown by a
caller-supplied callback. -/
inductive JError : Type where
  | dataTransformError (message : String) (instruction : Option Instruction)
  | deepPropertyError (message : String)
  | userError (tag : String)

/-- A multi-source descriptor: the `paths` to extract (each possibly the JS
`null`, meaning the whole source) and the optional `combine` callback, which
receives the extracted values positionally and may throw. -/
inductive FromDescriptor : Type where
  | mk (paths : List (Option JPath))
       (combine : Option (List JValue → Except JError JValue))

/-- The `from` field of an instruction: absent (JS `undefined`), the JS
`null` (the whole source), a single path, or a multi-source descriptor
(a JS object with a `paths` field). -/
inductive FromSpec : Type where
  | missing
  | root
  | path (p : JPath)
  | multi (d : FromDescriptor)

/-- The `transform` field when present: either a callable (receiving the
value, the result object built so far and the original source, and possibly
throwing), or a non-callable value, which instruction validation rejects. -/
inductive TransformField : Type where
  | fn (f : JValue → JValue → JValue → Except JError JValue)
  | notFn (v : JValue)

/-- One transformation instruction, mirroring the JS instruction object.
A `default` of `JValue.undefined` plays the role of an absent `default`
field, exactly as in JS where `instruction.default !== undefined` is the
presence test. -/
inductive Instruction : Type where
  | mk (fromSpec : FromSpec) (toSpec : ToSpec) (instructions : Option InstrArg)
       (transform : Option TransformField) (default : JValue)

/-- The `instructions` argument of `transformData`: a single instruction
object or an array of instructions. -/
inductive InstrArg : Type where
  | one (i : Instruction)
  | many (l : List Instruction)

end

/-- The `from` field of an instruction. -/
def Instruction.fromSpec : Instruction → FromSpec
  | .mk f _ _ _ _ => f

/-- The `to` field of an instruction. -/
def Instruction.toSpec : Instruction → ToSpec
  | .mk _ t _ _ _ => t

/-- The nested `instructions` field of an instruction. -/
def Instruction.instructions : Instruction → Option InstrArg
  | .mk _ _ i _ _ => i

/-- The `transform` field of an instruction. -/
def Instruction.transform : Instruction → Option TransformField
  | .mk _ _ _ t _ => t

/-- The `default` field of an instruction (`JValue.undefined` if absent). -/
def Instruction.default : Instruction → JValue
  | .mk _ _ _ _ d => d

/-- The `paths` field of a multi-source descriptor. -/
def FromDescriptor.paths : FromDescriptor → List (Option JPath)
  | .mk p _ => p

/-- The `combine` field of a multi-source descriptor. -/
def FromDescriptor.combine : FromDescriptor → Option (List JValue → Except JError JValue)
  | .mk _ c => c

/-- Modelled from the spec: `extractDeepProperty` of the external accessor.
Fails with `DeepPropertyError` on a malformed path, otherwise reports the
`(exists, value)` pair obtained by walking the path. -/
def extractDeepProperty (container : JValue) (path : JPath) : Except JError (Bool × JValue) :=
  match normalizePath path with
  | none => .error (.deepPropertyError "Invalid deep property path")
  | some parts => .ok (walkPath container parts)

/-- Modelled from the spec: the write walk of the accessor's
`setDeepProperty`, on the fields of the target object.  Intermediate
plain-object containers are created when the next step is not already an
object; an existing object container is reused. -/
def setFields : Fields → List String → JValue → Fields
  | fields, [], _ => fields
  | fields, [k], v => assocSet fields k v
  | fields, k :: rest, v =>
      let childFields : Fields :=
        match lookupField fields k with
        | some (.obj f) => f
        | _ => []
      assocSet fields k (.obj (setFields childFields rest v))

/-- Modelled from the spec: `setDeepProperty` of the external accessor,
acting on the fields of the (always object-shaped) result container.
Fails with `DeepPropertyError` on a malformed path. -/
def setDeepPropertyFields (fields : Fields) (path : JPath) (value : JValue) : Except JError Fields :=
  match normalizePath path with
  | none => .error (.deepPropertyError "Invalid deep property path")
  | some parts => .ok (setFields fields parts value)

/-- `isObject` from the source: JS `typeof value === 'object' && value !== null`,
which is true for plain objects and for arrays. -/
def isObject : JValue → Bool
  | .obj _ => true
  | .arr _ => true
  | _ => false

/-- JS `value === undefined`. -/
def isUndefined : JValue → Bool
  | .undefined => true
  | _ => false

/-- Whether the `transform` field is present but not callable (the condition
`instruction.transform !== undefined && !isFunction(instruction.transform)`
of the source). -/
def isNonCallableTransform : Option TransformField → Bool
  | some (.notFn _) => true
  | _ => false

/-- Whether the `from` field is absent (JS `instruction.from === undefined`). -/
def FromSpec.isMissing : FromSpec → Bool
  | .missing => true
  | _ => false

/-- Whether the `to` field is absent (JS `instruction.to === undefined`). -/
def ToSpec.isMissing : ToSpec → Bool
  | .missing => true
  | _ => false

/-- How JS `Array.prototype.join` renders one path segment (`null` joins as
the empty string). -/
def segDisplay : PathSeg → String
  | .key s => s
  | .idx n => toString n
  | .bad => ""

/-- `stringifyPath` from the source, on a single path. -/
def stringifyJPath : JPath → String
  | .segs l => String.intercalate " => " (l.map segDisplay)
  | .dot s => String.intercalate " => " (splitChars '.' s.data)

/-- `stringifyPath` from the source, on the whole `from` field (a `from` that
is not an array, string or object renders as JS `undefined` does in a
template literal). -/
def stringifyFrom : FromSpec → String
  | .path p => stringifyJPath p
  | .multi d =>
      String.intercalate ","
        (d.paths.map (fun p? =>
          "[" ++ (match p? with
                  | some p => stringifyJPath p
                  | none => "undefined") ++ "]"))
  | _ => "undefined"

/-- The computation monad of the embedding: the thrown error or the result,
paired with the console warnings emitted along the way. -/
abbrev TM (α : Type) : Type := Except JError α × List String

/-- Return a value, emitting nothing. -/
def TM.pure (a : α) : TM α := (Except.ok a, [])

/-- Sequencing: warnings accumulate in order; a thrown error aborts the rest
of the computation but keeps the warnings already emitted. -/
def TM.bind (x : TM α) (f : α → TM β) : TM β :=
  match x with
  | (Except.ok a, w) => ((f a).1, w ++ (f a).2)
  | (Except.error e, w) => (Except.error e, w)

/-- Throw an error. -/
def TM.throw (e : JError) : TM α := (Except.error e, [])

/-- Emit one console warning. -/
def TM.warn (msg : String) : TM Unit := (Except.ok (), [msg])

/-- Lift a warning-free accessor or callback result. -/
def TM.ofExcept (x : Except JError α) : TM α := (x, [])

/-- `extractProperty` from the source: a `null` path means the whole current
source value, anything else goes to the accessor. -/
def extractProperty (sourceObject : JValue) (path : Option JPath) : Except JError (Bool × JValue) :=
  match path with
  | none => .ok (true, sourceObject)
  | some p => extractDeepProperty sourceObject p

/-- The eager `instruction.paths.map(path => extractProperty(sourceObject, path))`
of the source: extraction results in order, aborting at the first thrown
error. -/
def mapExtract (sourceObject : JValue) : List (Option JPath) → Except JError (List (Bool × JValue))
  | [] => .ok []
  | p :: rest =>
      match extractProperty sourceObject p with
      | .error e => .error e
      | .ok r =>
          match mapExtract sourceObject rest with
          | .error e => .error e
          | .ok rs => .ok (r :: rs)

/-- `extractCombinedProperties` from the source: extract every sub-path,
take the conjunction of the `exists` flags, and if all exist produce either
the `combine` result or the array of extracted values. -/
def extractCombinedProperties (sourceObject : JValue) (instruction : FromDescriptor) :
    Except JError (Bool × JValue) :=
  match mapExtract sourceObject instruction.paths with
  | .error e => .error e
  | .ok extracts =>
      let allExist := extracts.foldl (fun state e => state && e.1) true
      if !allExist then .ok (false, JValue.undefined)
      else
        let allValues := extracts.foldl (fun values e => values ++ [e.2]) []
        match instruction.combine with
        | some combine =>
            match combine allValues with
            | .ok value => .ok (true, value)
            | .error e => .error e
        | none => .ok (true, JValue.arr allValues)

/-- The per-instruction validation of the source (in source order: a present
but non-callable `transform`, then a missing `from`, then a missing `to`). -/
def validateInstruction (instruction : Instruction) : Option JError :=
  if isNonCallableTransform instruction.transform then
    some (.dataTransformError "Transform is not a function" (some instruction))
  else if instruction.fromSpec.isMissing then
    some (.dataTransformError "Must supply \"from\" key path" (some instruction))
  else if instruction.toSpec.isMissing then
    some (.dataTransformError "Must supply \"to\" key path" (some instruction))
  else none

/-- The extraction step of the source: a `from` with a `paths` field goes to
`extractCombinedProperties`, anything else to `extractProperty`. -/
def extractFromSource (sourceObject : JValue) (instruction : Instruction) :
    Except JError (Bool × JValue) :=
  match instruction.fromSpec with
  | .missing => .ok (false, JValue.undefined)
  | .root => extractProperty sourceObject none
  | .path p => extractProperty sourceObject (some p)
  | .multi d => extractCombinedProperties sourceObject d

/-- The `try`/`catch` around the extraction step: a `DeepPropertyError` is
rethrown as a `DataTransformError` prefixed `In "from"` and carrying the
instruction; any other error gets the `throwUnexpectedError` treatment
(a console warning, then the original error rethrown unchanged). -/
def extractWithCatch (sourceObject : JValue) (instruction : Instruction) : TM (Bool × JValue) :=
  match extractFromSource sourceObject instruction with
  | .ok r => TM.pure r
  | .error (.deepPropertyError msg) =>
      TM.throw (.dataTransformError ("In \"from\": " ++ msg) (some instruction))
  | .error e => TM.bind (TM.warn "This error should not happen.") (fun _ => TM.throw e)

/-- The own enumerable key/value pairs of a value that passed `isObject`:
an object's fields, or an array's indices rendered as string keys. -/
def ownEnumerable : JValue → Fields
  | .obj fields => fields
  | .arr elems => (elems.enum).map (fun p => (toString p.1, p.2))
  | _ => []

/-- JS `Object.assign(target, source)` on the field lists: copy every own
enumerable pair of the source into the target in order, overwriting keys of
the same name. -/
def objAssign (target : Fields) (source : Fields) : Fields :=
  source.foldl (fun acc kv => assocSet acc kv.1 kv.2) target

/-- The write-back step of the source (lines 167-189): `to: null` merges an
object-shaped value into the result and rejects anything else; a path `to`
goes to the accessor's `setDeepProperty`, with `DeepPropertyError` rethrown
as a `DataTransformError` prefixed `In "to"`. -/
def writeResultValue (instruction : Instruction) (resultObject : Fields) (resultValue : JValue) :
    TM Fields :=
  match instruction.toSpec with
  | .null =>
      if !isObject resultValue then
        TM.throw (.dataTransformError "Cannot assign properties from a non-object" (some instruction))
      else
        TM.pure (objAssign resultObject (ownEnumerable resultValue))
  | .path p =>
      match setDeepPropertyFields resultObject p resultValue with
      | .ok newFields => TM.pure newFields
      | .error (.deepPropertyError msg) =>
          TM.throw (.dataTransformError ("In \"to\": " ++ msg) (some instruction))
      | .error e => TM.bind (TM.warn "This error should not happen.") (fun _ => TM.throw e)
  | .missing =>
      TM.throw (.dataTransformError "Must supply \"to\" key path" (some instruction))

/-- The recognised options of `transformData`, after the `Object.assign`
defaulting of the source (so `warn` is always present). -/
structure Options where
  warn : Bool
deriving Repr, DecidableEq

mutual

/-- Size of one instruction, counting nested instructions (for the
termination measure of the engine). -/
def instrSize : Instruction → Nat
  | .mk _ _ insts _ _ => 1 + instrOptSize insts

/-- Size of an optional nested instruction argument. -/
def instrOptSize : Option InstrArg → Nat
  | none => 0
  | some ia => instrArgSize ia

/-- Size of an instruction argument. -/
def instrArgSize : InstrArg → Nat
  | .one i => 1 + instrSize i
  | .many l => 1 + instrListSize l

/-- Size of a list of instructions. -/
def instrListSize : List Instruction → Nat
  | [] => 0
  | i :: rest => instrSize i + instrListSize rest

end

/-- The normalisation `if (!Array.isArray(instructions)) instructions = [instructions]`
of the source. -/
def normalizeInstructions : InstrArg → List Instruction
  | .one i => [i]
  | .many l => l

/-- Every instruction has positive size. -/
theorem instrSize_pos (i : Instruction) : 1 ≤ instrSize i := by
  cases i
  simp [instrSize]

/-- Normalising an instruction argument strictly shrinks its size. -/
theorem instrListSize_normalize_lt (ia : InstrArg) :
    instrListSize (normalizeInstructions ia) < instrArgSize ia := by
  cases ia <;> simp [normalizeInstructions, instrListSize, instrArgSize] <;> omega

/-- A nested instruction argument is strictly smaller than its instruction. -/
theorem instrArgSize_lt_of_some (i : Instruction) (ia : InstrArg)
    (h : i.instructions = some ia) : instrArgSize ia < instrSize i := by
  cases i with
  | mk f t insts tr d =>
      simp [Instruction.instructions] at h
      subst h
      simp [instrSize, instrOptSize]

/-- Decide a lexicographic triple comparison from its arithmetic content. -/
theorem lex3_of {a a' b b' c c' : Nat}
    (h : a < a' ∨ (a = a' ∧ (b < b' ∨ (b = b' ∧ c < c')))) :
    Prod.Lex (fun x y => x < y) (Prod.Lex (fun x y => x < y) (fun x y => x < y))
      (a, b, c) (a', b', c') := by
  rcases h with h | ⟨rfl, h | ⟨rfl, h⟩⟩
  · exact Prod.Lex.left _ _ h
  · exact Prod.Lex.right _ (Prod.Lex.left _ _ h)
  · exact Prod.Lex.right _ (Prod.Lex.right _ h)

mutual

/-- `transformData` from the source: fan out over an array source, reject a
non-object source, and otherwise build the result object by running the
instructions in order. -/
def transformData (sourceObject : JValue) (instructions : InstrArg) (options : Options) :
    TM JValue :=
  match sourceObject with
  | .arr elems =>
      TM.bind (transformArray elems instructions options)
        (fun results => TM.pure (JValue.arr results))
  | .obj fields =>
      TM.bind (runInstructions (JValue.obj fields) (normalizeInstructions instructions) [] options)
        (fun resultFields => TM.pure (JValue.obj resultFields))
  | .undefined => TM.throw (.dataTransformError "Source must be an object or an array" none)
  | .null => TM.throw (.dataTransformError "Source must be an object or an array" none)
  | .bool b => TM.throw (.dataTransformError "Source must be an object or an array" none)
  | .num n => TM.throw (.dataTransformError "Source must be an object or an array" none)
  | .str s => TM.throw (.dataTransformError "Source must be an object or an array" none)
termination_by (instrArgSize instructions, sizeOf sourceObject, 3)
decreasing_by
  all_goals simp_wf
  · exact lex3_of (by omega)
  · exact lex3_of (by have h := instrListSize_normalize_lt instructions; omega)

/-- The array fan-out `sourceObject.map(el => transformData(el, instructions, options))`. -/
def transformArray (elements : List JValue) (instructions : InstrArg) (options : Options) :
    TM (List JValue) :=
  match elements with
  | [] => TM.pure []
  | el :: rest =>
      TM.bind (transformData el instructions options) (fun r =>
        TM.bind (transformArray rest instructions options) (fun rs =>
          TM.pure (r :: rs)))
termination_by (instrArgSize instructions, 1 + sizeOf elements, 2)
decreasing_by
  all_goals simp_wf
  all_goals exact lex3_of (by omega)

/-- The instruction loop of the source, threading the growing result object. -/
def runInstructions (sourceObject : JValue) (instrs : List Instruction) (resultObject : Fields)
    (options : Options) : TM Fields :=
  match instrs with
  | [] => TM.pure resultObject
  | instruction :: rest =>
      TM.bind (runInstruction sourceObject instruction resultObject options) (fun newResult =>
        runInstructions sourceObject rest newResult options)
termination_by (instrListSize instrs, sizeOf sourceObject, 2)
decreasing_by
  all_goals simp_wf
  all_goals exact lex3_of (by
    have h1 : instrListSize (i :: rest) = instrSize i + instrListSize rest := rfl
    have h2 := instrSize_pos i
    omega)

/-- One iteration of the instruction loop: validate, extract (with the
`In "from"` catch), compute the result value, write it back. -/
def runInstruction (sourceObject : JValue) (instruction : Instruction) (resultObject : Fields)
    (options : Options) : TM Fields :=
  match validateInstruction instruction with
  | some e => TM.throw e
  | none =>
      TM.bind (extractWithCatch sourceObject instruction) (fun ex =>
        TM.bind (computeResultValue sourceObject instruction resultObject options ex.1 ex.2)
          (fun resultValue => writeResultValue instruction resultObject resultValue))
termination_by (instrSize instruction, sizeOf sourceObject, 1)
decreasing_by
  all_goals simp_wf
  all_goals exact lex3_of (by omega)

/-- Lines 135-165 of the source: when the extraction exists, apply nested
instructions then the `transform` callback; when it does not, emit the
`warn` diagnostic if enabled and fall back to the `default` (or to the
absent marker). -/
def computeResultValue (sourceObject : JValue) (instruction : Instruction) (resultObject : Fields)
    (options : Options) (sourceValueExists : Bool) (sourceValue : JValue) : TM JValue :=
  if sourceValueExists then
    TM.bind
      (match instruction with
       | .mk _ _ (some nested) _ _ => transformData sourceValue nested options
       | _ => TM.pure sourceValue)
      (fun rv =>
        match instruction.transform with
        | some (.fn f) => TM.ofExcept (f rv (JValue.obj resultObject) sourceObject)
        | _ => TM.pure rv)
  else
    TM.bind
      (if options.warn then
        TM.warn ("Value does not exist at: " ++ stringifyFrom instruction.fromSpec)
      else TM.pure ())
      (fun _ =>
        if !isUndefined instruction.default then TM.pure instruction.default
        else TM.pure JValue.undefined)
termination_by (instrSize instruction, sizeOf sourceObject, 0)
decreasing_by
  all_goals simp_wf
  all_goals exact lex3_of (by simp [instrSize, instrOptSize]; try omega)

end

/-- `transformDataFactory` from the source: partial application of
`transformData` to a fixed instruction set. -/
def transformDataFactory (instructions : InstrArg) : JValue → Options → TM JValue :=
  fun sourceObject options => transformData sourceObject instructions options

/-! ### Helper lemmas about the computation monad and list folds -/

/-- The result component of a sequencing: the warnings do not affect it. -/
theorem TM.bind_fst (x : TM α) (f : α → TM β) :
    (TM.bind x f).1 = match x.1 with
      | Except.ok a => (f a).1
      | Except.error e => Except.error e := by
  obtain ⟨r, w⟩ := x
  cases r <;> rfl

/-- Sequencing after a successful step. -/
theorem TM.bind_fst_ok {x : TM α} {a : α} (f : α → TM β) (h : x.1 = Except.ok a) :
    (TM.bind x f).1 = (f a).1 := by
  obtain ⟨r, w⟩ := x
  cases r with
  | ok b => cases h; rfl
  | error e => exact absurd h (by simp)

/-- Sequencing after a thrown error. -/
theorem TM.bind_fst_error {x : TM α} {e : JError} (f : α → TM β) (h : x.1 = Except.error e) :
    (TM.bind x f).1 = Except.error e := by
  obtain ⟨r, w⟩ := x
  cases r with
  | ok b => exact absurd h (by simp)
  | error e' => cases h; rfl

/-- The result component of a sequencing, as an `Except` bind. -/
theorem TM.bind_fst_eq (x : TM α) (f : α → TM β) :
    (TM.bind x f).1 = x.1.bind (fun a => (f a).1) := by
  obtain ⟨r, w⟩ := x
  cases r <;> rfl

/-- The `reduce`-style conjunction of the `exists` flags equals `List.all`. -/
theorem foldl_and_exists (l : List (Bool × JValue)) (b : Bool) :
    l.foldl (fun state e => state && e.1) b = (b && l.all (fun e => e.1)) := by
  induction l generalizing b with
  | nil => simp
  | cons hd tl ih => simp [List.foldl, ih, Bool.and_assoc]

/-- The `reduce`-style collection of the extracted values equals `List.map`. -/
theorem foldl_append_values (l : List (Bool × JValue)) (acc : List JValue) :
    l.foldl (fun values e => values ++ [e.2]) acc = acc ++ l.map (fun e => e.2) := by
  induction l generalizing acc with
  | nil => simp
  | cons hd tl ih => simp [List.foldl, ih]

/-- Writing a key makes it readable: JS property write followed by read. -/
theorem lookupField_assocSet (fields : Fields) (k : String) (v : JValue) :
    lookupField (assocSet fields k v) k = some v := by
  induction fields with
  | nil => simp [assocSet, lookupField]
  | cons hd tl ih =>
      obtain ⟨k', v'⟩ := hd
      by_cases h : k' = k <;> simp [assocSet, lookupField, h, ih]

/-! ### The claims -/

/-- C1: for a multi-source `from` descriptor, the combined extraction exists
if and only if every sub-path extraction exists; when one is missing the
whole extraction reports non-existence (so only default/absence handling can
apply at the instruction level); when all exist, `combine` (if present) is
applied positionally to the values in `paths` order, and otherwise the value
is the ordered array of extracted values. -/
theorem claim_C1_multi_source_and_combine (src : JValue) (d : FromDescriptor)
    (extracts : List (Bool × JValue))
    (h : mapExtract src d.paths = Except.ok extracts) :
    (extracts.all (fun e => e.1) = false →
        extractCombinedProperties src d = Except.ok (false, JValue.undefined))
    ∧ (extracts.all (fun e => e.1) = true →
        (∀ f, d.combine = some f →
            extractCombinedProperties src d =
              (match f (extracts.map (fun e => e.2)) with
               | Except.ok v => Except.ok (true, v)
               | Except.error e => Except.error e))
        ∧ (d.combine = none →
            extractCombinedProperties src d =
              Except.ok (true, JValue.arr (extracts.map (fun e => e.2))))) := by
  refine ⟨fun hall => ?_, fun hall => ⟨fun f hf => ?_, fun hnone => ?_⟩⟩
  · simp [extractCombinedProperties, h, foldl_and_exists, hall]
  · simp [extractCombinedProperties, h, foldl_and_exists, hall, hf, foldl_append_values]
  · simp [extractCombinedProperties, h, foldl_and_exists, hall, hnone, foldl_append_values]

/-- Concrete source for the C1 witness. -/
def srcC1 : JValue := .obj [("a", .num 1), ("b", .num 2)]

/-- A multi-source descriptor whose sub-paths all resolve on `srcC1`. -/
def dC1 : FromDescriptor := .mk [some (.dot "a"), some (.dot "b")] none

/-- A multi-source descriptor with one missing sub-path on `srcC1`. -/
def dC1miss : FromDescriptor := .mk [some (.dot "a"), some (.dot "nope")] none

/-- Witness for C1 at concrete inputs: both-exist gives the ordered array,
one-missing gives non-existence. -/
theorem claim_C1_multi_source_and_combine_witness :
    extractCombinedProperties srcC1 dC1 = Except.ok (true, JValue.arr [JValue.num 1, JValue.num 2])
    ∧ extractCombinedProperties srcC1 dC1miss = Except.ok (false, JValue.undefined) :=
  ⟨((claim_C1_multi_source_and_combine srcC1 dC1
      [(true, JValue.num 1), (true, JValue.num 2)] rfl).2 rfl).2 rfl,
   (claim_C1_multi_source_and_combine srcC1 dC1miss
      [(true, JValue.num 1), (false, JValue.undefined)] rfl).1 rfl⟩

/-- The instruction `from: 'foo', to: 'bar', default: 'D'` of the spec's
default-law example. -/
def instrC2 : Instruction :=
  .mk (.path (.dot "foo")) (.path (.dot "bar")) none none (.str "D")

/-- C2: the `default` is substituted exactly when the extraction reports
non-existence and never when the key exists holding the absent marker: in
general the missing branch produces the default (or the absent marker when
no default is present) and the existing branch passes the extracted value
through untouched; concretely, `transformData {} {from:'foo',to:'bar',default:'D'}`
yields `{bar:'D'}` while `transformData {foo:undefined}` with the same
instruction yields `{bar:undefined}`. -/
theorem claim_C2_default_exactly_on_nonexistence :
    (∀ (fs : FromSpec) (ts : ToSpec) (d : JValue) (src : JValue) (res : Fields)
        (opts : Options) (sv : JValue),
        ((computeResultValue src (Instruction.mk fs ts none none d) res opts false sv).1 =
          Except.ok (if isUndefined d then JValue.undefined else d))
        ∧ ((computeResultValue src (Instruction.mk fs ts none none d) res opts true sv).1 =
          Except.ok sv))
    ∧ (transformData (JValue.obj []) (InstrArg.one instrC2) ⟨false⟩).1 =
        Except.ok (JValue.obj [("bar", JValue.str "D")])
    ∧ (transformData (JValue.obj [("foo", JValue.undefined)]) (InstrArg.one instrC2) ⟨false⟩).1 =
        Except.ok (JValue.obj [("bar", JValue.undefined)]) := by
  refine ⟨fun fs ts d src res opts sv => ⟨?_, ?_⟩, ?_, ?_⟩
  · cases hw : opts.warn <;> cases hd : isUndefined d <;>
      simp [computeResultValue, Instruction.default, hw, hd, TM.bind, TM.pure, TM.warn]
  · simp [computeResultValue, Instruction.transform, TM.bind, TM.pure]
  · simp [transformData, runInstructions, runInstruction, computeResultValue, extractWithCatch,
      extractFromSource, extractProperty, extractDeepProperty, normalizePath, splitChars, walkPath,
      jGet, lookupField, validateInstruction, isNonCallableTransform, FromSpec.isMissing,
      ToSpec.isMissing, Instruction.transform, Instruction.fromSpec, Instruction.toSpec,
      Instruction.instructions, Instruction.default, writeResultValue, setDeepPropertyFields,
      setFields, assocSet, normalizeInstructions, TM.bind, TM.pure, TM.throw, TM.warn, TM.ofExcept,
      isUndefined, isObject, segToKey, instrC2]
  · simp [transformData, runInstructions, runInstruction, computeResultValue, extractWithCatch,
      extractFromSource, extractProperty, extractDeepProperty, normalizePath, splitChars, walkPath,
      jGet, lookupField, validateInstruction, isNonCallableTransform, FromSpec.isMissing,
      ToSpec.isMissing, Instruction.transform, Instruction.fromSpec, Instruction.toSpec,
      Instruction.instructions, Instruction.default, writeResultValue, setDeepPropertyFields,
      setFields, assocSet, normalizeInstructions, TM.bind, TM.pure, TM.throw, TM.warn, TM.ofExcept,
      isUndefined, isObject, segToKey, instrC2]

/-- C3: when the extraction exists, nested `instructions` are applied
strictly before the `transform` callback, which therefore observes the
post-nested-transform value; when the extraction does not exist, neither
nested instructions nor `transform` run — the produced value is exactly the
default-or-absent fallback, whatever the `instructions` and `transform`
fields hold. -/
theorem claim_C3_nested_before_transform :
    (∀ (src : JValue) (i : Instruction) (res : Fields) (opts : Options) (sv : JValue)
        (ia : InstrArg) (f : JValue → JValue → JValue → Except JError JValue) (v' : JValue),
        i.instructions = some ia → i.transform = some (.fn f) →
        (transformData sv ia opts).1 = Except.ok v' →
        (computeResultValue src i res opts true sv).1 = f v' (JValue.obj res) src)
    ∧ (∀ (src : JValue) (fs : FromSpec) (ts : ToSpec) (insts : Option InstrArg)
        (tr : Option TransformField) (d : JValue) (res : Fields) (opts : Options) (sv : JValue),
        (computeResultValue src (Instruction.mk fs ts insts tr d) res opts false sv).1 =
          Except.ok (if isUndefined d then JValue.undefined else d)) := by
  constructor
  · intro src i res opts sv ia f v' hia htr hres
    obtain ⟨fs, ts, insts, tr, d⟩ := i
    simp [Instruction.instructions] at hia
    simp [Instruction.transform] at htr
    subst hia
    subst htr
    rw [computeResultValue]
    simp only [if_true]
    rw [TM.bind_fst_ok _ hres]
    simp [Instruction.transform, TM.ofExcept]
  · intro src fs ts insts tr d res opts sv
    rw [computeResultValue.eq_def]
    cases hw : opts.warn <;> cases hd : isUndefined d <;>
      simp [Instruction.default, hw, hd, TM.bind, TM.pure, TM.warn]

/-- The nested instruction of the C3 witness: copy the whole nested source
under the key `inner`. -/
def innerC3 : Instruction := .mk .root (.path (.dot "inner")) none none .undefined

/-- The `transform` callback of the C3 witness: wrap the observed value in a
one-element array. -/
def fC3 : JValue → JValue → JValue → Except JError JValue :=
  fun v _ _ => Except.ok (JValue.arr [v])

/-- The instruction of the C3 witness, with both nested instructions and a
`transform`. -/
def instrC3 : Instruction :=
  .mk (.path (.dot "a")) (.path (.dot "x")) (some (.one innerC3)) (some (.fn fC3)) .undefined

/-- Witness for C3 at concrete inputs: the callback sees the nested-transform
output `{inner: {k: 1}}`, not the raw extracted value `{k: 1}`. -/
theorem claim_C3_nested_before_transform_witness :
    (computeResultValue (JValue.obj []) instrC3 [] ⟨false⟩ true (JValue.obj [("k", JValue.num 1)])).1 =
      Except.ok (JValue.arr [JValue.obj [("inner", JValue.obj [("k", JValue.num 1)])]]) :=
  claim_C3_nested_before_transform.1 (JValue.obj []) instrC3 [] ⟨false⟩
    (JValue.obj [("k", JValue.num 1)]) (.one innerC3) fC3
    (JValue.obj [("inner", JValue.obj [("k", JValue.num 1)])]) rfl rfl
    (by simp [transformData, runInstructions, runInstruction, computeResultValue, extractWithCatch,
      extractFromSource, extractProperty, extractDeepProperty, normalizePath, splitChars, walkPath,
      jGet, lookupField, validateInstruction, isNonCallableTransform, FromSpec.isMissing,
      ToSpec.isMissing, Instruction.transform, Instruction.fromSpec, Instruction.toSpec,
      Instruction.instructions, Instruction.default, writeResultValue, setDeepPropertyFields,
      setFields, assocSet, normalizeInstructions, TM.bind, TM.pure, TM.throw, TM.warn, TM.ofExcept,
      isUndefined, isObject, segToKey, innerC3])

/-- The accumulator-passing loop behind `List.mapM`, characterised in the
`Except` monad. -/
theorem mapM_loop_eq {α β ε : Type} (f : α → Except ε β) (l : List α) (acc : List β) :
    List.mapM.loop f l acc = (List.mapM f l).bind (fun bs => Except.ok (acc.reverse ++ bs)) := by
  induction l generalizing acc with
  | nil => simp [List.mapM.loop, List.mapM, Bind.bind, Except.bind, pure, Except.pure]
  | cons a l ih =>
      simp only [List.mapM.loop, List.mapM]
      cases hfa : f a with
      | error e => simp [Bind.bind, Except.bind, hfa]
      | ok b =>
          simp only [Bind.bind, Except.bind, hfa, ih]
          cases hml : List.mapM f l <;>
            simp [Bind.bind, Except.bind, hml, pure, Except.pure]

/-- `List.mapM` on an empty list in the `Except` monad. -/
theorem mapM_nil_except {α β ε : Type} (f : α → Except ε β) :
    List.mapM f ([] : List α) = Except.ok [] := rfl

/-- `List.mapM` on a cons in the `Except` monad. -/
theorem mapM_cons_except {α β ε : Type} (f : α → Except ε β) (a : α) (l : List α) :
    List.mapM f (a :: l) =
      (f a).bind (fun b => (List.mapM f l).bind (fun bs => Except.ok (b :: bs))) := by
  simp only [List.mapM, List.mapM.loop]
  cases hfa : f a with
  | error e => simp [Bind.bind, Except.bind, hfa]
  | ok b =>
      simp only [Bind.bind, Except.bind, hfa, mapM_loop_eq]
      cases hml : List.mapM f l <;> simp [Bind.bind, Except.bind, hml]

/-- The fan-out loop is the monadic map of `transformData` over the
elements (on the result component). -/
theorem transformArray_fst (ia : InstrArg) (opts : Options) (l : List JValue) :
    (transformArray l ia opts).1 = l.mapM (fun el => (transformData el ia opts).1) := by
  induction l with
  | nil => rw [transformArray, mapM_nil_except]; rfl
  | cons el rest ih =>
      rw [transformArray, mapM_cons_except, ← ih]
      simp [TM.bind_fst_eq, TM.pure]

/-- C4: transforming an array source equals transforming every element
independently with the same instructions and options, in order, preserving
length and order; in particular on a two-element array the result is the
element-wise pair of results. -/
theorem claim_C4_array_fan_out (ia : InstrArg) (opts : Options) :
    (∀ l : List JValue,
        (transformData (JValue.arr l) ia opts).1 =
          (l.mapM (fun el => (transformData el ia opts).1)).map JValue.arr)
    ∧ (∀ s1 s2 : JValue,
        (transformData (JValue.arr [s1, s2]) ia opts).1 =
          (transformData s1 ia opts).1.bind (fun r1 =>
            (transformData s2 ia opts).1.bind (fun r2 =>
              Except.ok (JValue.arr [r1, r2])))) := by
  have harr : ∀ l : List JValue,
      (transformData (JValue.arr l) ia opts).1 =
        (l.mapM (fun el => (transformData el ia opts).1)).map JValue.arr := by
    intro l
    rw [transformData]
    simp only [TM.bind_fst_eq, TM.pure, transformArray_fst]
    cases h : List.mapM (fun el => (transformData el ia opts).1) l <;>
      simp [h, Except.map, Except.bind]
  refine ⟨harr, fun s1 s2 => ?_⟩
  rw [harr [s1, s2], mapM_cons_except, mapM_cons_except, mapM_nil_except]
  cases h1 : (transformData s1 ia opts).1 <;> cases h2 : (transformData s2 ia opts).1 <;>
    simp [h1, h2, Except.map, Except.bind]

/-- The `to: null` instruction of the C5 counterexample. -/
def instrC5 : Instruction := .mk (.path (.dot "a")) ToSpec.null none none .undefined

/-- A source whose `a` key holds an array (a sequence, not a plain mapping). -/
def srcC5 : JValue := .obj [("a", .arr [.num 1, .num 2])]

/-- C5 counterexample: with `to: null` and a produced value that is a
sequence, the call does NOT fail — the array passes the JS
`typeof value === 'object'` check and its index/value pairs are merged into
the result as string keys.  This refutes the claim that the produced value
must not be a sequence or the call fails. -/
theorem claim_C5_counterexample :
    extractDeepProperty srcC5 (.dot "a") = Except.ok (true, JValue.arr [JValue.num 1, JValue.num 2])
    ∧ (transformData srcC5 (InstrArg.one instrC5) ⟨false⟩).1 =
        Except.ok (JValue.obj [("0", JValue.num 1), ("1", JValue.num 2)]) := by
  refine ⟨rfl, ?_⟩
  simp [transformData, runInstructions, runInstruction, computeResultValue, extractWithCatch,
    extractFromSource, extractProperty, extractDeepProperty, normalizePath, splitChars, walkPath,
    jGet, lookupField, validateInstruction, isNonCallableTransform, FromSpec.isMissing,
    ToSpec.isMissing, Instruction.transform, Instruction.fromSpec, Instruction.toSpec,
    Instruction.instructions, Instruction.default, writeResultValue, setDeepPropertyFields,
    setFields, assocSet, normalizeInstructions, TM.bind, TM.pure, TM.throw, TM.warn, TM.ofExcept,
    isUndefined, isObject, segToKey, instrC5, srcC5, ownEnumerable, objAssign, List.enum,
    List.enumFrom]
  rfl

/-- C5 (amended): with `to === null` the produced value must be a JS object
— not null and not a primitive — or the call fails with the
`DataTransformError` "Cannot assign properties from a non-object"; a plain
mapping's own key/value pairs are shallow-merged into the result,
overwriting existing keys of the same name, and a sequence also passes the
check, merging its index/value pairs under string keys. -/
theorem claim_C5_to_null_merge (i : Instruction) (res : Fields) (rv : JValue)
    (h : i.toSpec = ToSpec.null) :
    (isObject rv = false →
        writeResultValue i res rv =
          TM.throw (.dataTransformError "Cannot assign properties from a non-object" (some i)))
    ∧ (∀ f, rv = JValue.obj f → writeResultValue i res rv = TM.pure (objAssign res f))
    ∧ (∀ l, rv = JValue.arr l →
        writeResultValue i res rv = TM.pure (objAssign res (ownEnumerable (JValue.arr l))))
    ∧ (∀ k v, lookupField (objAssign res [(k, v)]) k = some v) := by
  refine ⟨fun hobj => ?_, fun f hf => ?_, fun l hl => ?_, fun k v => ?_⟩
  · simp [writeResultValue, h, hobj]
  · subst hf; simp [writeResultValue, h, isObject, ownEnumerable]
  · subst hl; simp [writeResultValue, h, isObject]
  · simp [objAssign, lookupField_assocSet]

/-- Witness for C5 (amended) at concrete inputs: a number is rejected with
the merge error, and a mapping is merged overwriting the existing key. -/
theorem claim_C5_to_null_merge_witness :
    writeResultValue instrC5 [] (JValue.num 3) =
      TM.throw (.dataTransformError "Cannot assign properties from a non-object" (some instrC5))
    ∧ writeResultValue instrC5 [("x", JValue.num 0)] (JValue.obj [("x", JValue.num 1)]) =
      TM.pure [("x", JValue.num 1)] := by
  refine ⟨(claim_C5_to_null_merge instrC5 [] (JValue.num 3) rfl).1 rfl, ?_⟩
  have h := (claim_C5_to_null_merge instrC5 [("x", JValue.num 0)]
    (JValue.obj [("x", JValue.num 1)]) rfl).2.1 [("x", JValue.num 1)] rfl
  rw [h]
  rfl

/-- A computation never produces a raw accessor `DeepPropertyError` (the
spec's `PathError`) as its outcome. -/
def NoDpe (x : TM α) : Prop :=
  ∀ m, x.1 ≠ Except.error (JError.deepPropertyError m)

/-- A `transform` field whose callback (if any) never throws the accessor's
`DeepPropertyError`; JS user code could construct one, so this is the
hypothesis under which no raw `PathError` can escape. -/
def CleanTr : Option TransformField → Prop
  | some (.fn f) => ∀ a b c m, f a b c ≠ Except.error (.deepPropertyError m)
  | _ => True

mutual

/-- All `transform` callbacks in an instruction avoid throwing the
accessor's `DeepPropertyError`, recursively. -/
def CleanInstr : Instruction → Prop
  | .mk _ _ insts tr _ => CleanOptArg insts ∧ CleanTr tr

/-- `CleanInstr` on an optional nested argument. -/
def CleanOptArg : Option InstrArg → Prop
  | none => True
  | some ia => CleanArg ia

/-- `CleanInstr` on an instruction argument. -/
def CleanArg : InstrArg → Prop
  | .one i => CleanInstr i
  | .many l => CleanList l

/-- `CleanInstr` on a list of instructions. -/
def CleanList : List Instruction → Prop
  | [] => True
  | i :: rest => CleanInstr i ∧ CleanList rest

end

/-- Normalisation preserves callback cleanliness. -/
theorem cleanList_of_normalize {ia : InstrArg} (h : CleanArg ia) :
    CleanList (normalizeInstructions ia) := by
  cases ia with
  | one i => exact ⟨h, trivial⟩
  | many l => exact h

/-- A pure step never produces a `DeepPropertyError`. -/
theorem TM.pure_noDpe (a : α) : NoDpe (TM.pure a) := by
  intro m
  simp [TM.pure]

/-- Throwing a non-`DeepPropertyError` never produces one. -/
theorem TM.throw_noDpe (e : JError) (h : ∀ m, e ≠ .deepPropertyError m) :
    NoDpe (TM.throw (α := α) e) := by
  intro m
  simp [TM.throw]
  exact h m

/-- Sequencing preserves `NoDpe`. -/
theorem TM.bind_noDpe {x : TM α} {f : α → TM β} (hx : NoDpe x) (hf : ∀ a, NoDpe (f a)) :
    NoDpe (TM.bind x f) := by
  intro m
  rw [TM.bind_fst_eq]
  cases hx1 : x.1 with
  | error e =>
      simp [Except.bind]
      intro he
      exact hx m (by rw [hx1, he])
  | ok a =>
      simp [Except.bind]
      exact hf a m

/-- A validation failure is always the engine's own error, never the
accessor's. -/
theorem validateInstruction_not_dpe {i : Instruction} {e : JError}
    (h : validateInstruction i = some e) : ∀ m, e ≠ .deepPropertyError m := by
  unfold validateInstruction at h
  repeat' split at h
  all_goals first
    | (cases h; intro m; simp)
    | simp_all

/-- The extraction step with its catch never lets a raw `DeepPropertyError`
out: the accessor's error is wrapped, and any other error is not a
`DeepPropertyError` to begin with. -/
theorem extractWithCatch_noDpe (src : JValue) (i : Instruction) :
    NoDpe (extractWithCatch src i) := by
  intro m
  unfold extractWithCatch
  cases h : extractFromSource src i with
  | ok r => simp [TM.pure]
  | error e =>
      cases e with
      | dataTransformError msg instr => simp [TM.bind, TM.warn, TM.throw]
      | deepPropertyError msg => simp [TM.throw]
      | userError tag => simp [TM.bind, TM.warn, TM.throw]

/-- The write-back step never lets a raw `DeepPropertyError` out. -/
theorem writeResultValue_noDpe (i : Instruction) (res : Fields) (rv : JValue) :
    NoDpe (writeResultValue i res rv) := by
  intro m
  unfold writeResultValue
  cases ht : i.toSpec with
  | missing => simp [TM.throw]
  | null =>
      cases hobj : isObject rv <;> simp [TM.throw, TM.pure]
  | path p =>
      cases h : setDeepPropertyFields res p rv with
      | ok newFields => simp [h, TM.pure]
      | error e =>
          cases e with
          | dataTransformError msg instr => simp [h, TM.bind, TM.warn, TM.throw]
          | deepPropertyError msg => simp [h, TM.throw]
          | userError tag => simp [h, TM.bind, TM.warn, TM.throw]

mutual

/-- No raw `DeepPropertyError` escapes `transformData` when all `transform`
callbacks are clean. -/
theorem transformData_noDpe (src : JValue) (ia : InstrArg) (o : Options)
    (hc : CleanArg ia) : NoDpe (transformData src ia o) :=
  match src with
  | .arr elems => by
      rw [transformData]
      exact TM.bind_noDpe (transformArray_noDpe elems ia o hc) (fun rs => TM.pure_noDpe _)
  | .obj fields => by
      rw [transformData]
      exact TM.bind_noDpe
        (runInstructions_noDpe (JValue.obj fields) (normalizeInstructions ia) [] o
          (cleanList_of_normalize hc))
        (fun _ => TM.pure_noDpe _)
  | .undefined => by rw [transformData]; exact TM.throw_noDpe _ (fun m => by simp)
  | .null => by rw [transformData]; exact TM.throw_noDpe _ (fun m => by simp)
  | .bool b => by rw [transformData]; exact TM.throw_noDpe _ (fun m => by simp)
  | .num n => by rw [transformData]; exact TM.throw_noDpe _ (fun m => by simp)
  | .str st => by rw [transformData]; exact TM.throw_noDpe _ (fun m => by simp)
termination_by (instrArgSize ia, sizeOf src, 3)
decreasing_by
  all_goals simp_wf
  · exact lex3_of (by omega)
  · exact lex3_of (by have h := instrListSize_normalize_lt ia; omega)

/-- No raw `DeepPropertyError` escapes the array fan-out. -/
theorem transformArray_noDpe (elements : List JValue) (ia : InstrArg) (o : Options)
    (hc : CleanArg ia) : NoDpe (transformArray elements ia o) :=
  match elements with
  | [] => by rw [transformArray]; exact TM.pure_noDpe _
  | el :: rest => by
      rw [transformArray]
      exact TM.bind_noDpe (transformData_noDpe el ia o hc)
        (fun r => TM.bind_noDpe (transformArray_noDpe rest ia o hc)
          (fun rs => TM.pure_noDpe _))
termination_by (instrArgSize ia, 1 + sizeOf elements, 2)
decreasing_by
  all_goals simp_wf
  all_goals exact lex3_of (by omega)

/-- No raw `DeepPropertyError` escapes the instruction loop. -/
theorem runInstructions_noDpe (src : JValue) (instrs : List Instruction) (res : Fields)
    (o : Options) (hc : CleanList instrs) : NoDpe (runInstructions src instrs res o) :=
  match instrs, hc with
  | [], _ => by rw [runInstructions]; exact TM.pure_noDpe _
  | i :: rest, hc => by
      rw [runInstructions]
      exact TM.bind_noDpe (runInstruction_noDpe src i res o hc.1)
        (fun newRes => runInstructions_noDpe src rest newRes o hc.2)
termination_by (instrListSize instrs, sizeOf src, 2)
decreasing_by
  all_goals simp_wf
  all_goals exact lex3_of (by
    have h1 : instrListSize (i :: rest) = instrSize i + instrListSize rest := rfl
    have h2 := instrSize_pos i
    omega)

/-- No raw `DeepPropertyError` escapes one instruction. -/
theorem runInstruction_noDpe (src : JValue) (i : Instruction) (res : Fields) (o : Options)
    (hc : CleanInstr i) : NoDpe (runInstruction src i res o) := by
  rw [runInstruction]
  cases hv : validateInstruction i with
  | some e => exact TM.throw_noDpe _ (validateInstruction_not_dpe hv)
  | none =>
      exact TM.bind_noDpe (extractWithCatch_noDpe src i)
        (fun ex => TM.bind_noDpe (computeResultValue_noDpe src i res o ex.1 ex.2 hc)
          (fun rv => writeResultValue_noDpe i res rv))
termination_by (instrSize i, sizeOf src, 1)
decreasing_by
  all_goals simp_wf
  all_goals exact lex3_of (by omega)

/-- No raw `DeepPropertyError` escapes the per-instruction value
computation when the callbacks are clean. -/
theorem computeResultValue_noDpe (src : JValue) (i : Instruction) (res : Fields) (o : Options)
    (ex : Bool) (sv : JValue) (hc : CleanInstr i) :
    NoDpe (computeResultValue src i res o ex sv) :=
  match i, hc with
  | .mk fs ts (some nested) tr d, ⟨hinsts, htr⟩ => by
      cases ex with
      | false =>
          rw [computeResultValue.eq_def]
          simp only [Bool.false_eq_true, if_false]
          apply TM.bind_noDpe
          · intro m
            cases hw : o.warn <;> simp [TM.warn, TM.pure]
          · intro a
            cases hd : isUndefined (Instruction.mk fs ts (some nested) tr d).default <;>
              simp [hd, NoDpe, TM.pure]
      | true =>
          rw [computeResultValue]
          apply TM.bind_noDpe (transformData_noDpe sv nested o hinsts)
          intro rv
          cases tr with
          | none => exact TM.pure_noDpe rv
          | some tf =>
              cases tf with
              | fn f =>
                  intro m
                  simp [TM.ofExcept, Instruction.transform]
                  exact htr rv (JValue.obj res) src m
              | notFn v => exact TM.pure_noDpe rv
  | .mk fs ts none tr d, ⟨hinsts, htr⟩ => by
      cases ex with
      | false =>
          rw [computeResultValue.eq_def]
          simp only [Bool.false_eq_true, if_false]
          apply TM.bind_noDpe
          · intro m
            cases hw : o.warn <;> simp [TM.warn, TM.pure]
          · intro a
            cases hd : isUndefined (Instruction.mk fs ts none tr d).default <;>
              simp [hd, NoDpe, TM.pure]
      | true =>
          simp only [computeResultValue]
          apply TM.bind_noDpe (TM.pure_noDpe sv)
          intro rv
          cases tr with
          | none => exact TM.pure_noDpe rv
          | some tf =>
              cases tf with
              | fn f =>
                  intro m
                  simp [TM.ofExcept, Instruction.transform]
                  exact htr rv (JValue.obj res) src m
              | notFn v => exact TM.pure_noDpe rv
termination_by (instrSize i, sizeOf src, 0)
decreasing_by
  all_goals simp_wf
  all_goals exact lex3_of (by simp [instrSize, instrOptSize]; try omega)

end

/-- C7: a `DeepPropertyError` (the spec's `PathError`) raised by the accessor
while resolving `from` is rethrown as a `DataTransformError` prefixed
`In "from"` carrying the instruction and the original message; one raised
while resolving `to` is rethrown prefixed `In "to"`; and (for callbacks that
do not themselves fabricate accessor errors) no raw `DeepPropertyError` ever
escapes `transformData`. -/
theorem claim_C7_path_errors_wrapped :
    (∀ (src : JValue) (i : Instruction) (m : String),
        extractFromSource src i = Except.error (.deepPropertyError m) →
        extractWithCatch src i =
          TM.throw (.dataTransformError ("In \"from\": " ++ m) (some i)))
    ∧ (∀ (i : Instruction) (res : Fields) (rv : JValue) (p : JPath) (m : String),
        i.toSpec = ToSpec.path p →
        setDeepPropertyFields res p rv = Except.error (.deepPropertyError m) →
        writeResultValue i res rv =
          TM.throw (.dataTransformError ("In \"to\": " ++ m) (some i)))
    ∧ (∀ (src : JValue) (ia : InstrArg) (o : Options), CleanArg ia →
        NoDpe (transformData src ia o)) := by
  refine ⟨fun src i m h => ?_, fun i res rv p m ht h => ?_, fun src ia o hc => ?_⟩
  · simp [extractWithCatch, h]
  · simp [writeResultValue, ht, h]
  · exact transformData_noDpe src ia o hc

/-- Instruction with an illegal `from` path segment (the JS `null` of the
repository's error-handling test). -/
def instrC7from : Instruction :=
  .mk (.path (.segs [.bad])) (.path (.dot "prop")) none none .undefined

/-- Instruction with an illegal `to` path segment. -/
def instrC7to : Instruction :=
  .mk (.path (.dot "prop")) (.path (.segs [.bad])) none none .undefined

/-- Witness for C7 at concrete inputs: the accessor failures on `{}` with an
illegal segment surface as the wrapped `In "from"` and `In "to"` errors, and
the callback-free instruction admits no raw accessor error at all. -/
theorem claim_C7_path_errors_wrapped_witness :
    extractWithCatch (JValue.obj []) instrC7from =
      TM.throw (.dataTransformError "In \"from\": Invalid deep property path" (some instrC7from))
    ∧ writeResultValue instrC7to [] JValue.undefined =
      TM.throw (.dataTransformError "In \"to\": Invalid deep property path" (some instrC7to))
    ∧ NoDpe (transformData (JValue.obj []) (InstrArg.one instrC7from) ⟨false⟩) :=
  ⟨claim_C7_path_errors_wrapped.1 (JValue.obj []) instrC7from "Invalid deep property path" rfl,
   claim_C7_path_errors_wrapped.2.1 instrC7to [] JValue.undefined (.segs [.bad])
     "Invalid deep property path" rfl rfl,
   claim_C7_path_errors_wrapped.2.2 (JValue.obj []) (InstrArg.one instrC7from) ⟨false⟩
     ⟨trivial, trivial⟩⟩

/-- A user `combine` callback that throws (a value indistinguishable from)
the accessor's `DeepPropertyError`. -/
def combineC8 : List JValue → Except JError JValue :=
  fun _ => .error (.deepPropertyError "boom")

/-- The multi-source instruction whose `combine` is `combineC8`. -/
def instrC8 : Instruction :=
  .mk (.multi (.mk [some (.dot "a")] (some combineC8))) (.path (.dot "x")) none none .undefined

/-- Source on which every sub-path of `instrC8` resolves. -/
def srcC8 : JValue := .obj [("a", .num 1)]

/-- C8 counterexample: an error thrown by the user-supplied `combine`
callback does NOT always propagate unmodified — the `combine` call sits
inside the `try` around extraction, so a thrown `DeepPropertyError` is
reclassified as the engine's `DataTransformError` tagged `In "from"`. -/
theorem claim_C8_counterexample :
    (transformData srcC8 (InstrArg.one instrC8) ⟨false⟩).1 =
      Except.error (.dataTransformError "In \"from\": boom" (some instrC8))
    ∧ (transformData srcC8 (InstrArg.one instrC8) ⟨false⟩).1 ≠
      Except.error (.deepPropertyError "boom") := by
  have h : (transformData srcC8 (InstrArg.one instrC8) ⟨false⟩).1 =
      Except.error (.dataTransformError "In \"from\": boom" (some instrC8)) := by
    simp [transformData, runInstructions, runInstruction, computeResultValue, extractWithCatch,
      extractFromSource, extractProperty, extractDeepProperty, extractCombinedProperties,
      mapExtract, normalizePath, splitChars, walkPath, jGet, lookupField, validateInstruction,
      isNonCallableTransform, FromSpec.isMissing, ToSpec.isMissing, Instruction.transform,
      Instruction.fromSpec, Instruction.toSpec, Instruction.instructions, Instruction.default,
      writeResultValue, setDeepPropertyFields, setFields, assocSet, normalizeInstructions,
      TM.bind, TM.pure, TM.throw, TM.warn, TM.ofExcept, isUndefined, isObject, segToKey,
      instrC8, srcC8, combineC8, FromDescriptor.paths, FromDescriptor.combine]
  exact ⟨h, by rw [h]; simp⟩

/-- C8 (amended): an error thrown by a `transform` callback propagates to
the caller unmodified (the call sits outside every `try`); an error thrown
by `combine` propagates unmodified as long as it is not the accessor's
`DeepPropertyError` (it only picks up the extra "This error should not
happen." diagnostic), while a thrown `DeepPropertyError` is reclassified as
an `In "from"` `DataTransformError`. -/
theorem claim_C8_callback_errors_propagate :
    (∀ (src : JValue) (i : Instruction) (res : Fields) (opts : Options) (sv : JValue)
        (f : JValue → JValue → JValue → Except JError JValue) (e : JError),
        i.instructions = none → i.transform = some (.fn f) →
        f sv (JValue.obj res) src = Except.error e →
        (computeResultValue src i res opts true sv).1 = Except.error e)
    ∧ (∀ (src : JValue) (i : Instruction) (t : String),
        extractFromSource src i = Except.error (.userError t) →
        (extractWithCatch src i).1 = Except.error (.userError t)) := by
  constructor
  · intro src i res opts sv f e hia htr hf
    obtain ⟨fs, ts, insts, tr, d⟩ := i
    simp [Instruction.instructions] at hia
    simp [Instruction.transform] at htr
    subst hia
    subst htr
    simp [computeResultValue, Instruction.transform, TM.bind, TM.pure, TM.ofExcept, hf]
  · intro src i t h
    simp [extractWithCatch, h, TM.bind, TM.warn, TM.throw]

/-- A `transform` callback that throws a caller-domain error. -/
def fC8 : JValue → JValue → JValue → Except JError JValue :=
  fun _ _ _ => .error (.userError "usr")

/-- The instruction whose `transform` is `fC8`. -/
def instrC8tr : Instruction :=
  .mk (.path (.dot "a")) (.path (.dot "x")) none (some (.fn fC8)) .undefined

/-- A `combine` callback that throws a caller-domain error. -/
def combineC8u : List JValue → Except JError JValue :=
  fun _ => .error (.userError "u2")

/-- The multi-source instruction whose `combine` is `combineC8u`. -/
def instrC8cu : Instruction :=
  .mk (.multi (.mk [some (.dot "a")] (some combineC8u))) (.path (.dot "x")) none none .undefined

/-- Witness for C8 (amended) at concrete inputs: the `transform` throw and
the non-accessor `combine` throw both come out unmodified. -/
theorem claim_C8_callback_errors_propagate_witness :
    (computeResultValue srcC8 instrC8tr [] ⟨false⟩ true (JValue.num 1)).1 =
      Except.error (.userError "usr")
    ∧ (extractWithCatch srcC8 instrC8cu).1 = Except.error (.userError "u2") :=
  ⟨claim_C8_callback_errors_propagate.1 srcC8 instrC8tr [] ⟨false⟩ (JValue.num 1) fC8
      (.userError "usr") rfl rfl rfl,
   claim_C8_callback_errors_propagate.2 srcC8 instrC8cu "u2" rfl⟩

/-- C9: each instruction is validated before processing — a present but
non-callable `transform` fails with "Transform is not a function", a missing
`from` with `Must supply "from" key path`, a missing `to` with
`Must supply "to" key path`, each `DataTransformError` carrying the
offending instruction; a `from` or `to` equal to the JS `null` counts as
present and validates. -/
theorem claim_C9_instruction_validation :
    (∀ (src : JValue) (i : Instruction) (res : Fields) (opts : Options) (v : JValue),
        i.transform = some (.notFn v) →
        runInstruction src i res opts =
          TM.throw (.dataTransformError "Transform is not a function" (some i)))
    ∧ (∀ (src : JValue) (i : Instruction) (res : Fields) (opts : Options),
        isNonCallableTransform i.transform = false → i.fromSpec = FromSpec.missing →
        runInstruction src i res opts =
          TM.throw (.dataTransformError "Must supply \"from\" key path" (some i)))
    ∧ (∀ (src : JValue) (i : Instruction) (res : Fields) (opts : Options),
        isNonCallableTransform i.transform = false → i.fromSpec.isMissing = false →
        i.toSpec = ToSpec.missing →
        runInstruction src i res opts =
          TM.throw (.dataTransformError "Must supply \"to\" key path" (some i)))
    ∧ (∀ (insts : Option InstrArg) (d : JValue),
        validateInstruction (.mk .root ToSpec.null insts none d) = none) := by
  refine ⟨fun src i res opts v htr => ?_, fun src i res opts h1 h2 => ?_,
    fun src i res opts h1 h2 h3 => ?_, fun insts d => ?_⟩
  · have hv : validateInstruction i =
        some (.dataTransformError "Transform is not a function" (some i)) := by
      simp [validateInstruction, isNonCallableTransform, htr]
    rw [runInstruction.eq_def, hv]
  · have hv : validateInstruction i =
        some (.dataTransformError "Must supply \"from\" key path" (some i)) := by
      simp [validateInstruction, h1, h2, FromSpec.isMissing]
    rw [runInstruction.eq_def, hv]
  · have hv : validateInstruction i =
        some (.dataTransformError "Must supply \"to\" key path" (some i)) := by
      simp [validateInstruction, h1, h2, h3, ToSpec.isMissing]
    rw [runInstruction.eq_def, hv]
  · simp [validateInstruction, isNonCallableTransform, FromSpec.isMissing, ToSpec.isMissing,
      Instruction.transform, Instruction.fromSpec, Instruction.toSpec]

/-- Instruction whose `transform` is the string `'not a function'`. -/
def instrC9tr : Instruction :=
  .mk (.path (.dot "prop")) (.path (.dot "newProp")) none
    (some (.notFn (.str "not a function"))) .undefined

/-- Instruction with no `from` field. -/
def instrC9from : Instruction := .mk .missing (.path (.dot "prop")) none none .undefined

/-- Instruction with no `to` field. -/
def instrC9to : Instruction := .mk (.path (.dot "prop")) ToSpec.missing none none .undefined

/-- Witness for C9 at concrete inputs: the three validation failures of the
repository's error-handling tests. -/
theorem claim_C9_instruction_validation_witness :
    runInstruction (JValue.obj []) instrC9tr [] ⟨false⟩ =
      TM.throw (.dataTransformError "Transform is not a function" (some instrC9tr))
    ∧ runInstruction (JValue.obj []) instrC9from [] ⟨false⟩ =
      TM.throw (.dataTransformError "Must supply \"from\" key path" (some instrC9from))
    ∧ runInstruction (JValue.obj []) instrC9to [] ⟨false⟩ =
      TM.throw (.dataTransformError "Must supply \"to\" key path" (some instrC9to)) :=
  ⟨claim_C9_instruction_validation.1 (JValue.obj []) instrC9tr [] ⟨false⟩
      (.str "not a function") rfl,
   claim_C9_instruction_validation.2.1 (JValue.obj []) instrC9from [] ⟨false⟩ rfl rfl,
   claim_C9_instruction_validation.2.2.1 (JValue.obj []) instrC9to [] ⟨false⟩ rfl rfl rfl⟩

/-- Congruence for sequencing on the result component. -/
theorem TM.bind_fst_congr {x y : TM α} {f g : α → TM β} (hxy : x.1 = y.1)
    (hfg : ∀ a, (f a).1 = (g a).1) : (TM.bind x f).1 = (TM.bind y g).1 := by
  rw [TM.bind_fst_eq, TM.bind_fst_eq, hxy]
  cases hy : y.1 <;> simp [Except.bind, hfg]

mutual

/-- The options (whose only recognised member is the `warn` flag) never
affect the result or error of `transformData`, only its diagnostics. -/
theorem transformData_options_fst (src : JValue) (ia : InstrArg) (o₁ o₂ : Options) :
    (transformData src ia o₁).1 = (transformData src ia o₂).1 :=
  match src with
  | .arr elems => by
      rw [transformData, transformData]
      exact TM.bind_fst_congr (transformArray_options_fst elems ia o₁ o₂) (fun rs => rfl)
  | .obj fields => by
      rw [transformData, transformData]
      exact TM.bind_fst_congr
        (runInstructions_options_fst (JValue.obj fields) (normalizeInstructions ia) [] o₁ o₂)
        (fun _ => rfl)
  | .undefined => by rw [transformData, transformData]
  | .null => by rw [transformData, transformData]
  | .bool b => by rw [transformData, transformData]
  | .num n => by rw [transformData, transformData]
  | .str st => by rw [transformData, transformData]
termination_by (instrArgSize ia, sizeOf src, 3)
decreasing_by
  all_goals simp_wf
  · exact lex3_of (by omega)
  · exact lex3_of (by have h := instrListSize_normalize_lt ia; omega)

/-- The options never affect the result of the array fan-out. -/
theorem transformArray_options_fst (elements : List JValue) (ia : InstrArg) (o₁ o₂ : Options) :
    (transformArray elements ia o₁).1 = (transformArray elements ia o₂).1 :=
  match elements with
  | [] => by rw [transformArray, transformArray]
  | el :: rest => by
      rw [transformArray, transformArray]
      exact TM.bind_fst_congr (transformData_options_fst el ia o₁ o₂)
        (fun r => TM.bind_fst_congr (transformArray_options_fst rest ia o₁ o₂)
          (fun rs => rfl))
termination_by (instrArgSize ia, 1 + sizeOf elements, 2)
decreasing_by
  all_goals simp_wf
  all_goals exact lex3_of (by omega)

/-- The options never affect the result of the instruction loop. -/
theorem runInstructions_options_fst (src : JValue) (instrs : List Instruction) (res : Fields)
    (o₁ o₂ : Options) : (runInstructions src instrs res o₁).1 = (runInstructions src instrs res o₂).1 :=
  match instrs with
  | [] => by rw [runInstructions, runInstructions]
  | i :: rest => by
      rw [runInstructions, runInstructions]
      exact TM.bind_fst_congr (runInstruction_options_fst src i res o₁ o₂)
        (fun newRes => runInstructions_options_fst src rest newRes o₁ o₂)
termination_by (instrListSize instrs, sizeOf src, 2)
decreasing_by
  all_goals simp_wf
  all_goals exact lex3_of (by
    have h1 : instrListSize (i :: rest) = instrSize i + instrListSize rest := rfl
    have h2 := instrSize_pos i
    omega)

/-- The options never affect the result of one instruction. -/
theorem runInstruction_options_fst (src : JValue) (i : Instruction) (res : Fields)
    (o₁ o₂ : Options) : (runInstruction src i res o₁).1 = (runInstruction src i res o₂).1 := by
  rw [runInstruction.eq_def, runInstruction.eq_def]
  cases hv : validateInstruction i with
  | some e => simp [hv]
  | none =>
      simp only [hv]
      exact TM.bind_fst_congr rfl
        (fun ex => TM.bind_fst_congr (computeResultValue_options_fst src i res o₁ o₂ ex.1 ex.2)
          (fun rv => rfl))
termination_by (instrSize i, sizeOf src, 1)
decreasing_by
  all_goals simp_wf
  all_goals exact lex3_of (by omega)

/-- The options never affect the per-instruction produced value, only the
diagnostic emitted when the extraction is missing. -/
theorem computeResultValue_options_fst (src : JValue) (i : Instruction) (res : Fields)
    (o₁ o₂ : Options) (ex : Bool) (sv : JValue) :
    (computeResultValue src i res o₁ ex sv).1 = (computeResultValue src i res o₂ ex sv).1 :=
  match i with
  | .mk fs ts (some nested) tr d => by
      cases ex with
      | true =>
          rw [computeResultValue, computeResultValue]
          exact TM.bind_fst_congr (transformData_options_fst sv nested o₁ o₂) (fun rv => rfl)
      | false =>
          rw [computeResultValue.eq_def, computeResultValue.eq_def]
          simp only [Bool.false_eq_true, if_false]
          exact TM.bind_fst_congr
            (by cases h1 : o₁.warn <;> cases h2 : o₂.warn <;> rfl) (fun a => rfl)
  | .mk fs ts none tr d => by
      cases ex with
      | true =>
          simp [computeResultValue]
      | false =>
          rw [computeResultValue.eq_def, computeResultValue.eq_def]
          simp only [Bool.false_eq_true, if_false]
          exact TM.bind_fst_congr
            (by cases h1 : o₁.warn <;> cases h2 : o₂.warn <;> rfl) (fun a => rfl)
termination_by (instrSize i, sizeOf src, 0)
decreasing_by
  all_goals simp_wf
  all_goals exact lex3_of (by simp [instrSize, instrOptSize]; try omega)

end

/-- C10: the `warn` option is purely observational — the result (value or
thrown error) of `transformData` with `warn: true` equals the result with
`warn: false` on every source and instruction list; in particular a missing
extraction is never turned into an exception by `warn`. -/
theorem claim_C10_warn_is_observational (src : JValue) (ia : InstrArg) (w₁ w₂ : Bool) :
    (transformData src ia ⟨w₁⟩).1 = (transformData src ia ⟨w₂⟩).1 :=
  transformData_options_fst src ia ⟨w₁⟩ ⟨w₂⟩
